import Mathlib

/-!
Shallow embedding of the `rl-learning` training-orchestration core and proofs
about it.  Each definition in the first part of this file is translated from
one Python function of the repository (the source file and symbol are named in
its doc comment); the theorems in the second part settle the specification
claims against those definitions.

Modelling conventions:
* Python floats are modelled as exact rationals (`ℚ`) where the source uses
  only field arithmetic, and as reals (`ℝ`) where `sqrt` appears.
* Python exceptions are modelled with `Except Err`; a method that both mutates
  its object and may raise returns the mutated state alongside the
  `Except` result, since in Python mutations performed before a raise persist.
* `collections.deque` with `maxlen = C` is modelled as a list together with
  the append rule "append, then discard from the left while over capacity",
  written as one `List.drop`.
-/

namespace RLSpec

/-- Error values raised by the embedded code.  The repository raises plain
Python exceptions (`ValueError`, `IndexError`, ...); the messages are kept so
the distinct raise sites stay distinguishable. -/
inductive Err where
  | valueError (msg : String)
  | indexError (msg : String)
  | attributeError (msg : String)
  | zeroDivisionError
  | fuelExhausted
  deriving DecidableEq, Repr

/-- Python indexing `l[i]` for a non-negative index: raises `IndexError` when
out of range. -/
def pyIndex {α : Type} (l : List α) (i : Nat) : Except Err α :=
  match l.get? i with
  | some x => Except.ok x
  | none => Except.error (Err.indexError "index out of range")

/-- `collections.deque(maxlen := maxlen)` append: append on the right and,
when that would exceed `maxlen`, discard from the left.  On states with
`l.length ≤ maxlen` this is the single drop below (it drops `0` below
capacity, `1` at capacity, and with `maxlen = 0` the appended element itself
is discarded). -/
def dequeAppend {α : Type} (maxlen : Nat) (l : List α) (x : α) : List α :=
  (l ++ [x]).drop (l.length + 1 - maxlen)

/-! ## ReplayBuffer — src/utils/buffer.py, class ReplayBuffer -/

/-- `ReplayBuffer.__init__` state: `self.buffer = deque(maxlen=max_size)`,
`self.max_size`, `self.min_size`.  The deque contents are the list `buffer`,
oldest element first. -/
structure ReplayBuffer (α : Type) where
  buffer : List α
  max_size : Nat
  min_size : Nat
  deriving DecidableEq, Repr

/-- A freshly constructed `ReplayBuffer(max_size, min_size)`. -/
def ReplayBuffer.empty (α : Type) (max_size min_size : Nat) : ReplayBuffer α :=
  ⟨[], max_size, min_size⟩

/-- `ReplayBuffer.add`: `self.buffer.append(transition)` on the
`maxlen = max_size` deque. -/
def ReplayBuffer.add {α : Type} (b : ReplayBuffer α) (t : α) : ReplayBuffer α :=
  { b with buffer := dequeAppend b.max_size b.buffer t }

/-- A sequence of `add` calls, oldest first. -/
def ReplayBuffer.addAll {α : Type} (b : ReplayBuffer α) (ts : List α) : ReplayBuffer α :=
  ts.foldl ReplayBuffer.add b

/-- `ReplayBuffer.__len__`. -/
def ReplayBuffer.size {α : Type} (b : ReplayBuffer α) : Nat :=
  b.buffer.length

/-- `ReplayBuffer.ready`: `len(self.buffer) >= self.min_size`. -/
def ReplayBuffer.ready {α : Type} (b : ReplayBuffer α) : Bool :=
  b.buffer.length ≥ b.min_size

/-- `ReplayBuffer.sample`.  The source checks `size < min_size` and then
`batch_size > size`, raising `ValueError` for each, and otherwise indexes the
deque at `batch_size` indices drawn by
`np.random.choice(len(buffer), size=batch_size, replace=False)`.  The random
draw is modelled by the parameter `indices`; the drawing contract of
`np.random.choice` with `replace=False` (pairwise-distinct indices, all below
the buffer length, exactly `batch_size` of them) is stated as a hypothesis on
`indices` in the theorems that use it. -/
def ReplayBuffer.sample {α : Type} (b : ReplayBuffer α) (batch_size : Nat)
    (indices : List Nat) : Except Err (List α) :=
  if b.buffer.length < b.min_size then
    Except.error (Err.valueError "Buffer size is below min_size")
  else if batch_size > b.buffer.length then
    Except.error (Err.valueError "Requested batch_size exceeds buffer size")
  else
    indices.mapM (pyIndex b.buffer)

/-! ## EpisodeBuffer — src/utils/buffer.py, class EpisodeBuffer

In the source, `add_step` executes `self.current_episode.append(step)` and
then, when `done` is true, `self.buffer.append(self.current_episode)` followed
by `self.current_episode.clear()`.  `self.buffer.append` stores a *reference*
to the one list object bound to `self.current_episode`, and `clear()` empties
that same object in place; `self.current_episode` is never rebound to a new
list.  Consequently every element of the completed-episode deque is the same
shared list object, equal at all times to the in-progress episode contents.
The observable state is therefore fully described by the number of queue
entries plus the contents of the single shared list, which is how it is
modelled here. -/

/-- Steps are `(observation, action, reward, done)` tuples. -/
structure EpisodeBuffer (O A : Type) where
  completedCount : Nat
  current : List (O × A × ℚ × Bool)
  deriving DecidableEq, Repr

/-- `EpisodeBuffer.__init__`. -/
def EpisodeBuffer.empty (O A : Type) : EpisodeBuffer O A := ⟨0, []⟩

/-- `EpisodeBuffer.add_step`: append the step to the shared in-progress list;
when `done`, one more queue entry now references that list and the list is
cleared in place (emptying every queue entry with it). -/
def EpisodeBuffer.add_step {O A : Type} (b : EpisodeBuffer O A)
    (obs : O) (action : A) (reward : ℚ) (done : Bool) : EpisodeBuffer O A :=
  let cur := b.current ++ [(obs, action, reward, done)]
  if done then
    { completedCount := b.completedCount + 1, current := [] }
  else
    { b with current := cur }

/-- `EpisodeBuffer.get_episode`: `self.buffer[-1]` when the queue is
non-empty (every entry aliases the shared list, so this is `current`),
otherwise `raise IndexError("Episode buffer empty")`. -/
def EpisodeBuffer.get_episode {O A : Type} (b : EpisodeBuffer O A) :
    Except Err (List (O × A × ℚ × Bool)) :=
  if b.completedCount > 0 then
    Except.ok b.current
  else
    Except.error (Err.indexError "Episode buffer empty")

/-- `EpisodeBuffer.get_all_episodes`: `list(self.buffer)` — every queue entry
is the shared list. -/
def EpisodeBuffer.get_all_episodes {O A : Type} (b : EpisodeBuffer O A) :
    List (List (O × A × ℚ × Bool)) :=
  List.replicate b.completedCount b.current

/-! ## MetricsTracker — src/utils/metrics.py, class MetricsTracker -/

/-- `MetricsTracker.__init__(window_size)` state: three
`deque(maxlen=window_size)` windows plus lifetime counters. -/
structure MetricsTracker where
  window_size : Nat
  rewards : List ℚ
  lengths : List Nat
  losses : List ℚ
  total_episodes : Nat
  total_steps : Nat
  total_reward : ℚ
  deriving DecidableEq, Repr

/-- A freshly constructed `MetricsTracker(window_size)`. -/
def MetricsTracker.init (window_size : Nat) : MetricsTracker :=
  ⟨window_size, [], [], [], 0, 0, 0⟩

/-- `MetricsTracker.update`.  The loss push is guarded by `if loss:` — Python
truthiness — which skips both `None` and a loss equal to `0.0` (and `-0.0`);
the reward/length pushes and the lifetime counters are unconditional. -/
def MetricsTracker.update (m : MetricsTracker) (episode_reward : ℚ)
    (episode_length : Nat) (loss : Option ℚ) : MetricsTracker :=
  { m with
    rewards := dequeAppend m.window_size m.rewards episode_reward
    lengths := dequeAppend m.window_size m.lengths episode_length
    losses :=
      match loss with
      | some x => if x = 0 then m.losses else dequeAppend m.window_size m.losses x
      | none => m.losses
    total_episodes := m.total_episodes + 1
    total_steps := m.total_steps + episode_length
    total_reward := m.total_reward + episode_reward }

/-- A sequence of `update` calls. -/
def MetricsTracker.updateAll (m : MetricsTracker)
    (xs : List (ℚ × Nat × Option ℚ)) : MetricsTracker :=
  xs.foldl (fun acc x => acc.update x.1 x.2.1 x.2.2) m

/-! ## Running statistics — src/env_wrappers/normalize_obs.py,
NormalizeObservations._update_stats / _normalize

The source applies the recurrence elementwise to the observation vector; one
component is modelled, every component following the same scalar recurrence.
The state stores the running *standard deviation* (as the source does) and
squares it back to a variance inside `_update_stats`; `Real.sqrt` forces
these definitions to be noncomputable, so the theorems about them are
evaluated with `norm_num` rather than `decide`. -/

/-- Fields of `NormalizeObservations` used by `_update_stats`/`_normalize`. -/
structure RunningStats where
  running_mean : ℝ
  running_std : ℝ
  epsilon : ℝ
  momentum : ℝ

/-- `NormalizeObservations._update_stats`:
`new_mean = m * old_mean + obs * (1 - m)`;
`new_var = old_var * m + (obs - old_mean) ** 2 * (1 - m)` with
`old_var = running_std ** 2`; stores `running_std = sqrt(new_var)`. -/
noncomputable def RunningStats.updateStats (s : RunningStats) (obs : ℝ) : RunningStats :=
  let m := s.momentum
  let old_mean := s.running_mean
  let old_var := s.running_std ^ 2
  let new_mean := m * old_mean + obs * (1 - m)
  let new_var := old_var * m + (obs - old_mean) ^ 2 * (1 - m)
  { s with running_mean := new_mean, running_std := Real.sqrt new_var }

/-- The variance held by the state: the square of the stored standard
deviation. -/
noncomputable def RunningStats.variance (s : RunningStats) : ℝ := s.running_std ^ 2

/-- `NormalizeObservations._normalize`:
`(obs - running_mean) / (running_std + epsilon)`.  A pure function of the
state: the source assigns nothing here. -/
noncomputable def RunningStats.normalize (s : RunningStats) (obs : ℝ) : ℝ :=
  (obs - s.running_mean) / (s.running_std + s.epsilon)

/-! ## Wrapper-chain construction — src/env_wrappers/env_factory.py -/

/-- `WRAPPER_REGISTRY` keys, in declaration order. -/
def WRAPPER_REGISTRY : List String :=
  ["base", "frame_stack", "normalize_observations", "normalize_rewards"]

/-- `DEFAULT_WRAPPER_ORDER`: observation transforms, then temporal
transforms, then reward transforms. -/
def DEFAULT_WRAPPER_ORDER : List String :=
  ["normalize_observations", "frame_stack", "normalize_rewards"]

/-- The `environment.wrappers` mapping.  Each dict entry is reduced to its
`enabled` flag, the only parameter `apply_wrappers` consults: a missing or
empty params dict and `enabled: false` each cause a skip (`if not params or
not params.get("enabled", False): continue`), modelled by absence from
`entries` or a `false` flag.  The special `order` dict key — which the
source excludes from the extras loop by name — is the `order` field. -/
structure WrapperConfig where
  entries : List (String × Bool)
  order : Option (List String)

/-- `wrapper_config.get(name, \x7b\x7d).get("enabled", False)`. -/
def WrapperConfig.enabledFlag (cfg : WrapperConfig) (name : String) : Bool :=
  (cfg.entries.lookup name).getD false

/-- The guard of both application loops: skip unless the params enable the
wrapper and the name is registered. -/
def WrapperConfig.applied (cfg : WrapperConfig) (name : String) : Bool :=
  cfg.enabledFlag name && WRAPPER_REGISTRY.contains name

/-- A wrapped environment, for tracking which wrapper classes were applied
around the base environment and in which order (`wrap name inner` is
`WRAPPER_REGISTRY[name](inner, params)`). -/
inductive WrapEnv where
  | base : WrapEnv
  | wrap (name : String) (inner : WrapEnv)
  deriving DecidableEq, Repr

/-- The names of the applied wrappers in application order, innermost
(applied first) to outermost. -/
def WrapEnv.applicationOrder : WrapEnv → List String
  | .base => []
  | .wrap name inner => inner.applicationOrder ++ [name]

/-- One iteration of an application loop of `apply_wrappers`. -/
def applyOne (cfg : WrapperConfig) (env : WrapEnv) (name : String) : WrapEnv :=
  if cfg.applied name then .wrap name env else env

/-- `EnvironmentFactory._resolve_wrapper_order`: the explicit `order` list
filtered to registered names when present, the canonical default order
otherwise. -/
def resolveWrapperOrder (cfg : WrapperConfig) : List String :=
  match cfg.order with
  | some l => l.filter (fun n => WRAPPER_REGISTRY.contains n)
  | none => DEFAULT_WRAPPER_ORDER

/-- Insert into an ascending list, before the first strictly larger
element. -/
def lexInsert (x : String) : List String → List String
  | [] => [x]
  | y :: ys => if x < y then x :: y :: ys else y :: lexInsert x ys

/-- Python `sorted` on strings: ascending lexicographic order, realized by
insertion sort so the definition evaluates structurally. -/
def sortedLex : List String → List String
  | [] => []
  | x :: xs => lexInsert x (sortedLex xs)

/-- `EnvironmentFactory.apply_wrappers`: wrap in the resolved order, then
wrap the remaining config keys (the `order` key excluded) in sorted order,
skipping disabled and unregistered names throughout. -/
def applyWrappers (env : WrapEnv) (cfg : WrapperConfig) : WrapEnv :=
  let resolved := resolveWrapperOrder cfg
  let env1 := resolved.foldl (applyOne cfg) env
  let extras := (cfg.entries.map Prod.fst).filter (fun n => !resolved.contains n)
  (sortedLex extras).foldl (applyOne cfg) env1

/-- Modelled from the spec (§4.2, claim C7), for comparison with
`applyWrappers`: the effective application order is the resolved order
(explicit order filtered to known transform names if present, else the
canonical default) restricted to enabled known transforms, followed by the
enabled known transforms absent from the resolved order in
lexicographic-name order; disabled or missing transforms are skipped
entirely. -/
def specApplicationOrder (cfg : WrapperConfig) : List String :=
  let resolved :=
    match cfg.order with
    | some l => l.filter (fun n => WRAPPER_REGISTRY.contains n)
    | none => DEFAULT_WRAPPER_ORDER
  let unlisted := (cfg.entries.map Prod.fst).filter (fun n => !resolved.contains n)
  resolved.filter (fun n => cfg.applied n)
    ++ (sortedLex unlisted).filter (fun n => cfg.applied n)

/-! ## Reward statistics — src/env_wrappers/normalize_rewards.py,
NormalizeRewards._update_stats -/

/-- `NormalizeRewards` running statistics (`running_mean`, `running_std`;
`epsilon` is the fixed `1e-8`, not needed below because the normalize call
never executes, see `EvalEnv.step`). -/
structure RewardStats where
  running_mean : ℝ
  running_std : ℝ

/-- `NormalizeRewards._update_stats` with its hardcoded momentum `0.99`:
`running_mean = old_mean * 0.99 + reward * 0.01`;
`running_std = sqrt(old_var * 0.99 + (reward - old_mean) ** 2 * 0.01)`. -/
noncomputable def RewardStats.updateStats (s : RewardStats) (reward : ℝ) : RewardStats :=
  let old_mean := s.running_mean
  let old_var := s.running_std ^ 2
  { running_mean := old_mean * (99 / 100) + reward * (1 / 100)
    running_std := Real.sqrt (old_var * (99 / 100) + (reward - old_mean) ^ 2 * (1 / 100)) }

/-! ## Environment chain for the evaluation loop —
src/env_wrappers/normalize_obs.py, src/env_wrappers/normalize_rewards.py,
src/utils/eval.py

The base environment is an external collaborator (spec §1); it is modelled
as a finite script of `(observation, reward, terminated, truncated)` step
results replayed from `reset`, with stepping past the end of the script
reporting termination.  The wrappers hold `.env` references forming a chain,
modelled by the recursive constructors. -/

inductive EvalEnv where
  /-- Scripted base environment: `obs0` is the reset observation, `script`
  the full episode script, `remaining` the part not yet consumed. -/
  | scripted (obs0 : ℝ) (script remaining : List (ℝ × ℝ × Bool × Bool)) : EvalEnv
  /-- `NormalizeObservations` wrapper state over its inner environment. -/
  | normObs (st : RunningStats) (reset_stats_on_episode : Bool) (training : Bool)
      (inner : EvalEnv) : EvalEnv
  /-- `NormalizeRewards` wrapper state over its inner environment. -/
  | normRew (st : RewardStats) (training : Bool) (inner : EvalEnv) : EvalEnv

/-- `env.reset()`.  `NormalizeObservations.reset` resets its statistics when
training with `reset_stats_on_episode` and normalizes the observation;
`NormalizeRewards` has no `reset` of its own, so `BaseWrapper.reset` passes
straight through to the inner environment. -/
noncomputable def EvalEnv.reset : EvalEnv → EvalEnv × ℝ
  | .scripted obs0 script _ => (.scripted obs0 script script, obs0)
  | .normObs st rs tr inner =>
      let (inner', obs) := inner.reset
      let st' := if tr && rs then { st with running_mean := 0, running_std := 1 } else st
      (.normObs st' rs tr inner', st'.normalize obs)
  | .normRew st tr inner =>
      let (inner', obs) := inner.reset
      (.normRew st tr inner', obs)

/-- `env.step(action)`.  State mutated before a raise persists, so the
result carries the new state alongside the `Except` outcome.

`NormalizeRewards.step` first updates its statistics when `self.training`
is true, and then evaluates `self._normalize(reward)` — but the class
defines only `_normalize_reward`, and no `_normalize` exists anywhere in its
method-resolution order (`BaseWrapper` has none), so the call raises
`AttributeError` after the statistics mutation has already happened
(src/env_wrappers/normalize_rewards.py line 20). -/
noncomputable def EvalEnv.step : EvalEnv → ℤ → EvalEnv × Except Err (ℝ × ℝ × Bool × Bool)
  | .scripted obs0 script remaining, _ =>
      match remaining with
      | [] => (.scripted obs0 script [], Except.ok (obs0, 0, true, true))
      | r :: rest => (.scripted obs0 script rest, Except.ok r)
  | .normObs st rs tr inner, a =>
      match inner.step a with
      | (inner', Except.error e) => (.normObs st rs tr inner', Except.error e)
      | (inner', Except.ok (obs, r, t, tc)) =>
          let st' := if tr then st.updateStats obs else st
          (.normObs st' rs tr inner', Except.ok (st'.normalize obs, r, t, tc))
  | .normRew st tr inner, a =>
      match inner.step a with
      | (inner', Except.error e) => (.normRew st tr inner', Except.error e)
      | (inner', Except.ok (_, r, _, _)) =>
          let st' := if tr then st.updateStats r else st
          (.normRew st' tr inner', Except.error (Err.attributeError "_normalize"))

/-- `set_env_training_mode` (src/utils/eval.py): walk the `.env` chain and
call `set_training(bool)` on every wrapper that defines it.  Only
`NormalizeObservations` defines `set_training`; `NormalizeRewards` (despite
holding a `training` flag consulted by its `step`) and the base environment
do not, so the walk leaves them untouched. -/
def EvalEnv.setTrainingMode : EvalEnv → Bool → EvalEnv
  | .scripted obs0 script remaining, _ => .scripted obs0 script remaining
  | .normObs st rs _ inner, b => .normObs st rs b (inner.setTrainingMode b)
  | .normRew st tr inner, b => .normRew st tr (inner.setTrainingMode b)

/-- Length of the base script, a bound used as loop fuel for the
while-not-done episode loop of `Trainer.evaluate`. -/
def EvalEnv.baseScriptLen : EvalEnv → Nat
  | .scripted _ script _ => script.length
  | .normObs _ _ _ inner => inner.baseScriptLen
  | .normRew _ _ inner => inner.baseScriptLen

/-- The running means of every `NormalizeRewards` wrapper in the chain,
outermost first (observation helper for the theorems). -/
def EvalEnv.rewardMeans : EvalEnv → List ℝ
  | .scripted _ _ _ => []
  | .normObs _ _ _ inner => inner.rewardMeans
  | .normRew st _ inner => st.running_mean :: inner.rewardMeans

/-! ## Trainer.evaluate — src/runners/trainer.py lines 21-56 -/

/-- The slice of the agent that `evaluate` touches: the optional
`self.agent.network` torch module reduced to its `training` flag (`none`
models an agent without a `network` attribute), and the deterministic
evaluation policy behind `select_action(obs, training=False)`. -/
structure AgentModel where
  networkTraining : Option Bool
  policy : ℝ → ℤ

/-- Python true division `x / n`, raising `ZeroDivisionError` on a zero
divisor. -/
noncomputable def pydiv (x : ℝ) (n : Nat) : Except Err ℝ :=
  if n = 0 then Except.error Err.zeroDivisionError else Except.ok (x / n)

/-- The `while not done` episode body of `Trainer.evaluate`, with fuel:
select an action, step, accumulate reward and length, stop when terminated
or truncated.  Exhausted fuel models a diverging loop. -/
noncomputable def runEpisodeAux (policy : ℝ → ℤ) :
    Nat → EvalEnv → ℝ → ℝ → Nat → EvalEnv × Except Err (ℝ × Nat)
  | 0, e, _, _, _ => (e, Except.error Err.fuelExhausted)
  | fuel + 1, e, obs, accR, accL =>
      match e.step (policy obs) with
      | (e', Except.error err) => (e', Except.error err)
      | (e', Except.ok (obs', r, t, tc)) =>
          if t || tc then (e', Except.ok (accR + r, accL + 1))
          else runEpisodeAux policy fuel e' obs' (accR + r) (accL + 1)

/-- One full evaluation episode: `obs, _ = env.reset()` then the step
loop. -/
noncomputable def runEpisode (policy : ℝ → ℤ) (fuel : Nat) (env : EvalEnv) :
    EvalEnv × Except Err (ℝ × Nat) :=
  let (env1, obs) := env.reset
  runEpisodeAux policy fuel env1 obs 0 0

/-- The `for _ in range(num_episodes)` loop of `evaluate`, accumulating the
`rewards` and `lengths` lists. -/
noncomputable def evalLoop (policy : ℝ → ℤ) (fuel : Nat) :
    Nat → EvalEnv → List ℝ → List Nat → EvalEnv × Except Err (List ℝ × List Nat)
  | 0, e, rws, lns => (e, Except.ok (rws, lns))
  | n + 1, e, rws, lns =>
      match runEpisode policy fuel e with
      | (e', Except.error err) => (e', Except.error err)
      | (e', Except.ok (r, l)) => evalLoop policy fuel n e' (rws ++ [r]) (lns ++ [l])

/-- `Trainer.evaluate(num_episodes)`: switch the wrapper chain (and the
agent network, when present) to evaluation behavior, run the episodes, then
restore training mode (`network.train()` only when the network existed and
was in training mode before) and aggregate with divisor
`n = max(len(rewards), 1)`.  An exception inside the loop propagates with
the state mutated so far: the mode restore after the loop is not reached. -/
noncomputable def evaluate (agent : AgentModel) (env : EvalEnv) (num_episodes : Nat) :
    (AgentModel × EvalEnv) × Except Err (ℝ × ℝ) :=
  let env1 := env.setTrainingMode false
  let prev_training := agent.networkTraining
  let agent1 :=
    match agent.networkTraining with
    | some _ => { agent with networkTraining := some false }
    | none => agent
  let fuel := env.baseScriptLen + 1
  match evalLoop agent.policy fuel num_episodes env1 [] [] with
  | (env2, Except.error err) => ((agent1, env2), Except.error err)
  | (env2, Except.ok (rewards, lengths)) =>
      let agent2 :=
        match prev_training with
        | some true => { agent1 with networkTraining := some true }
        | _ => agent1
      let env3 := env2.setTrainingMode true
      let n := max rewards.length 1
      match pydiv rewards.sum n with
      | Except.error err => ((agent2, env3), Except.error err)
      | Except.ok reward_mean =>
          match pydiv ((lengths.map fun l => (l : ℝ)).sum) n with
          | Except.error err => ((agent2, env3), Except.error err)
          | Except.ok length_mean => ((agent2, env3), Except.ok (reward_mean, length_mean))

/-! ## Trainer.train — src/runners/trainer.py lines 58-82

The loop calls, per episode, the `before_episode`/`after_episode` hooks (no
operations in the base class), the abstract `train_episode`, then
conditionally `evaluate` and `save_checkpoint`.  For the resource-release
claim these three bodies are abstracted as possibly-raising calls supplied as
parameters; the observable effects tracked are which lifecycle methods ran.
-/

/-- Which lifecycle methods of the trainer have run. -/
structure TrainLog where
  beforeTrainingCalled : Bool
  afterTrainingCalled : Bool
  envClosed : Bool
  agentClosed : Bool
  deriving DecidableEq, Repr

/-- All-false starting log. -/
def TrainLog.start : TrainLog := ⟨false, false, false, false⟩

/-- `Trainer.before_training` hook (a no-operation in the source; recorded
here). -/
def beforeTrainingHook (s : TrainLog) : TrainLog := { s with beforeTrainingCalled := true }

/-- `Trainer.after_training` hook (a no-operation in the source; recorded
here). -/
def afterTrainingHook (s : TrainLog) : TrainLog := { s with afterTrainingCalled := true }

/-- `Trainer.close` (src/runners/trainer.py lines 106-111): closes the
environment and the agent when they expose `close`. -/
def closeTrainer (s : TrainLog) : TrainLog := { s with envClosed := true, agentClosed := true }

/-- `try: body finally: fin`: the handler runs on the normal and the
exceptional path alike, and the body result (exception included)
propagates. -/
def tryFinally {α : Type} (body : TrainLog → TrainLog × Except Err α)
    (fin : TrainLog → TrainLog) (s : TrainLog) : TrainLog × Except Err α :=
  let (s1, r) := body s
  (fin s1, r)

/-- Python truthiness of the optional integer cadence parameters
(`if eval_every and ...`): `None` and `0` are falsy. -/
def cadenceHits (cadence : Option Nat) (episode_idx : Nat) : Bool :=
  match cadence with
  | none => false
  | some c => c ≠ 0 && (episode_idx + 1) % c = 0

/-- One iteration of the training loop: `train_episode(i)`, then
`evaluate(eval_episodes)` when the evaluation cadence hits, then
`save_checkpoint(...)` when the checkpoint cadence hits; any raise
propagates. -/
def trainIteration (trainEp : Nat → Except Err (ℚ × Nat × Option ℚ))
    (evalStep : Nat → Except Err Unit) (ckptStep : Nat → Except Err Unit)
    (eval_every checkpoint_every : Option Nat) (i : Nat) : Except Err Unit := do
  let _ ← trainEp i
  if cadenceHits eval_every i then evalStep i else pure ()
  if cadenceHits checkpoint_every i then ckptStep i else pure ()

/-- `for episode_idx in range(num_episodes)` over `trainIteration`,
starting at index `i`. -/
def runEpisodesFrom (body : Nat → Except Err Unit) : Nat → Nat → Except Err Unit
  | _, 0 => Except.ok ()
  | i, n + 1 =>
      match body i with
      | Except.error e => Except.error e
      | Except.ok () => runEpisodesFrom body (i + 1) n

/-- `Trainer.train`: `before_training()`, set the environment to training
mode, then the episode loop inside `try: ... finally: self.after_training()`.
No call to `close` appears anywhere in `train`. -/
def train (trainEp : Nat → Except Err (ℚ × Nat × Option ℚ))
    (evalStep : Nat → Except Err Unit) (ckptStep : Nat → Except Err Unit)
    (num_episodes : Nat) (eval_every checkpoint_every : Option Nat)
    (s : TrainLog) : TrainLog × Except Err Unit :=
  let s1 := beforeTrainingHook s
  tryFinally
    (fun s2 =>
      (s2, runEpisodesFrom
        (trainIteration trainEp evalStep ckptStep eval_every checkpoint_every)
        0 num_episodes))
    afterTrainingHook s1

/-- `ExperimentRunner.run` (src/runners/experiment.py lines 81-87): the
training flow runs inside `try: ... finally: self.trainer.close()`. -/
def runnerRun (trainEp : Nat → Except Err (ℚ × Nat × Option ℚ))
    (evalStep : Nat → Except Err Unit) (ckptStep : Nat → Except Err Unit)
    (num_episodes : Nat) (eval_every checkpoint_every : Option Nat)
    (s : TrainLog) : TrainLog × Except Err Unit :=
  tryFinally (train trainEp evalStep ckptStep num_episodes eval_every checkpoint_every)
    closeTrainer s

/-! ## Checkpoint sidecar — src/runners/trainer.py lines 84-104 -/

/-- Contents of a file on disk: the primary artifact written by
`agent.save` (the agent state reduced to an integer), or the sidecar
metadata written by `torch.save(metadata, sidecar)`. -/
inductive FileData where
  | agentArtifact (state : ℤ)
  | metaArtifact (meta : ℤ)
  deriving DecidableEq, Repr

/-- The sidecar path computed by `save_checkpoint`:
`sidecar = f"{str(path)}.meta.pt"`. -/
def sidecarPath (path : String) : String := path ++ ".meta.pt"

/-- `Trainer.save_checkpoint(path, metadata)`: delegate the primary
artifact to `self.agent.save(path)`, then, when `metadata is not None`,
write it to the sidecar path.  The file system is a map from paths to
contents. -/
def saveCheckpoint (fs : String → Option FileData) (agentState : ℤ) (path : String)
    (metadata : Option ℤ) : String → Option FileData :=
  let fs1 := fun p => if p = path then some (.agentArtifact agentState) else fs p
  match metadata with
  | some m => fun p => if p = sidecarPath path then some (.metaArtifact m) else fs1 p
  | none => fs1

/-- `Trainer.load_checkpoint(path)`: delegate to `self.agent.load(path)`,
which reads the primary path only — the definition consults the file system
at `path` alone. -/
def loadCheckpoint (fs : String → Option FileData) (path : String) : Except Err ℤ :=
  match fs path with
  | some (.agentArtifact s) => Except.ok s
  | _ => Except.error (Err.valueError "cannot load agent checkpoint")

/-! # Theorems -/

/-- C1.  The claim fails on the code: completing an episode queues the very
list object that `clear()` then empties, so the queued episode is empty.
Running `add_step(1, 1, 1/2, False)` then `add_step(2, 2, 1, True)` on a
fresh buffer and querying the latest episode returns the empty list, not the
two recorded steps; the failure branch for an empty queue is also
evaluated. -/
theorem C1_completed_episode_is_empty :
    (((EpisodeBuffer.empty ℤ ℤ).add_step 1 1 (1 / 2) false).add_step 2 2 1 true).get_episode
        = Except.ok []
    ∧ (((EpisodeBuffer.empty ℤ ℤ).add_step 1 1 (1 / 2) false).add_step 2 2 1 true).get_episode
        ≠ Except.ok [((1 : ℤ), (1 : ℤ), (1 / 2 : ℚ), false), ((2 : ℤ), (2 : ℤ), (1 : ℚ), true)]
    ∧ (((EpisodeBuffer.empty ℤ ℤ).add_step 1 1 (1 / 2) false).add_step 2 2 1 true).completedCount
        = 1
    ∧ (EpisodeBuffer.empty ℤ ℤ).get_episode
        = Except.error (Err.indexError "Episode buffer empty") := by
  refine ⟨rfl, ?_, rfl, rfl⟩
  intro h
  injection h with h2
  exact List.noConfusion h2

/-- The single-step shape of the FIFO eviction: appending to the retained
suffix and re-dropping equals retaining the suffix of the longer list. -/
theorem dequeAppend_drop_suffix {α : Type} (C : Nat) (ts : List α) (t : α) :
    dequeAppend C (ts.drop (ts.length - C)) t = (ts ++ [t]).drop (ts.length + 1 - C) := by
  unfold dequeAppend
  rw [List.length_drop]
  rcases Nat.lt_or_ge ts.length C with h | h
  · have h1 : ts.length - C = 0 := by omega
    have h2 : ts.length + 1 - C = 0 := by omega
    have h3 : ts.length - 0 + 1 - C = 0 := by omega
    simp [h1, h2, h3]
  · rcases Nat.eq_zero_or_pos C with hC | hC
    · subst hC
      have e1 : ts.length - (ts.length - 0) + 1 - 0 = 1 := by omega
      rw [e1, show ts.drop (ts.length - 0) = [] by simp]
      have h2 : (ts ++ [t]).length ≤ ts.length + 1 - 0 := by simp
      simp [List.drop_eq_nil_of_le h2]
    · have h1 : ts.length - (ts.length - C) = C := by omega
      rw [h1]
      have h2 : C + 1 - C = 1 := by omega
      rw [h2]
      have h3 : 1 ≤ (ts.drop (ts.length - C)).length := by
        rw [List.length_drop]; omega
      rw [List.drop_append_of_le_length h3, List.drop_drop]
      have h4 : ts.length + 1 - C ≤ ts.length := by omega
      rw [List.drop_append_of_le_length h4]
      congr 2
      omega

/-- `add` never changes the configured capacity. -/
theorem addAll_max_size {α : Type} (b : ReplayBuffer α) (ts : List α) :
    (b.addAll ts).max_size = b.max_size := by
  induction ts generalizing b with
  | nil => rfl
  | cons t ts ih =>
      show ((b.add t).addAll ts).max_size = b.max_size
      rw [ih]
      rfl

/-- The contents of a replay buffer after any sequence of adds from empty:
exactly the suffix of the added sequence that fits the capacity. -/
theorem addAll_buffer_eq {α : Type} (C m : Nat) (ts : List α) :
    ((ReplayBuffer.empty α C m).addAll ts).buffer = ts.drop (ts.length - C) := by
  induction ts using List.reverseRecOn with
  | nil => simp [ReplayBuffer.addAll, ReplayBuffer.empty]
  | append_singleton ts t ih =>
      have step : (ReplayBuffer.empty α C m).addAll (ts ++ [t])
          = ((ReplayBuffer.empty α C m).addAll ts).add t := by
        unfold ReplayBuffer.addAll
        rw [List.foldl_append, List.foldl_cons, List.foldl_nil]
      rw [step]
      have hmax : ((ReplayBuffer.empty α C m).addAll ts).max_size = C :=
        addAll_max_size (ReplayBuffer.empty α C m) ts
      show dequeAppend ((ReplayBuffer.empty α C m).addAll ts).max_size
          ((ReplayBuffer.empty α C m).addAll ts).buffer t
          = (ts ++ [t]).drop ((ts ++ [t]).length - C)
      rw [hmax, ih, dequeAppend_drop_suffix]
      simp

/-- C4.  For every sequence of `add` calls to a buffer of capacity `C`, the
contents are exactly the `C` most recently added transitions in insertion
order (the suffix of the add sequence), the length never exceeds `C`, and
the concrete scenario capacity `5`, adds `t1..t7`, retains `t3..t7`. -/
theorem C4_fifo_eviction {α : Type} (C m : Nat) (ts : List α) :
    ((ReplayBuffer.empty α C m).addAll ts).buffer = ts.drop (ts.length - C)
    ∧ ((ReplayBuffer.empty α C m).addAll ts).size ≤ C
    ∧ ((ReplayBuffer.empty ℕ 5 0).addAll [1, 2, 3, 4, 5, 6, 7]).buffer = [3, 4, 5, 6, 7] := by
  refine ⟨addAll_buffer_eq C m ts, ?_, by decide⟩
  show ((ReplayBuffer.empty α C m).addAll ts).buffer.length ≤ C
  rw [addAll_buffer_eq, List.length_drop]
  omega

/-- C8 counterexample.  The claim says a loss of `0.0` is recorded and only
`None` skipped; the `if loss:` truthiness guard also skips `0.0`: updating a
fresh window-3 tracker with loss `0.0` leaves the loss window empty. -/
theorem C8_zero_loss_not_recorded :
    ((MetricsTracker.init 3).update 1 1 (some 0)).losses = []
    ∧ ((MetricsTracker.init 3).update 1 1 (some 0)).losses ≠ [(0 : ℚ)] := by
  refine ⟨rfl, by decide⟩

/-- C8 (amended).  `update` pushes reward and length into their windows on
every call, pushes loss exactly when it is not `None` and not zero (Python
truthiness: `0.0` is skipped like `None`), and increments the lifetime
counters unconditionally; with window size 3 and rewards `[1, 2, 3, 4]` the
reward window holds `[2, 3, 4]`, `total_reward = 10`, and
`total_episodes = 4`. -/
theorem C8_metrics_window (m : MetricsTracker) (r : ℚ) (len : Nat) (loss : Option ℚ) :
    (m.update r len loss).rewards = dequeAppend m.window_size m.rewards r
    ∧ (m.update r len loss).lengths = dequeAppend m.window_size m.lengths len
    ∧ (m.update r len loss).losses =
        (match loss with
         | some x => if x = 0 then m.losses else dequeAppend m.window_size m.losses x
         | none => m.losses)
    ∧ (m.update r len loss).total_episodes = m.total_episodes + 1
    ∧ (m.update r len loss).total_steps = m.total_steps + len
    ∧ (m.update r len loss).total_reward = m.total_reward + r
    ∧ ((MetricsTracker.init 3).updateAll
          [(1, 1, none), (2, 1, none), (3, 1, none), (4, 1, none)]).rewards = [2, 3, 4]
    ∧ ((MetricsTracker.init 3).updateAll
          [(1, 1, none), (2, 1, none), (3, 1, none), (4, 1, none)]).total_reward = 10
    ∧ ((MetricsTracker.init 3).updateAll
          [(1, 1, none), (2, 1, none), (3, 1, none), (4, 1, none)]).total_episodes = 4 := by
  refine ⟨rfl, rfl, rfl, rfl, rfl, rfl, ?_, ?_, rfl⟩
  · norm_num [MetricsTracker.updateAll, MetricsTracker.update, MetricsTracker.init, dequeAppend]
  · norm_num [MetricsTracker.updateAll, MetricsTracker.update, MetricsTracker.init, dequeAppend]

/-- C9 counterexample.  Saving a checkpoint at path `ckpt` with metadata
writes nothing at `ckpt.meta`: the sidecar lands at `ckpt.meta.pt`. -/
theorem C9_sidecar_not_at_meta :
    saveCheckpoint (fun _ => none) 7 "ckpt" (some 3) "ckpt.meta" = none
    ∧ saveCheckpoint (fun _ => none) 7 "ckpt" (some 3) "ckpt.meta.pt"
        = some (.metaArtifact 3) := by
  constructor <;> decide

/-- C9 (amended).  For every path and non-`None` metadata, `save_checkpoint`
writes the metadata to the sidecar at `<path>.meta.pt` (not `<path>.meta`)
and the primary artifact at `<path>`; `load_checkpoint` reads the primary
path alone, so any file system agreeing at `<path>` (in particular one with
the sidecar absent) loads identically. -/
theorem C9_sidecar_contract (fs : String → Option FileData) (agentState : ℤ)
    (path : String) (metadata : Option ℤ) (m : ℤ) (hm : metadata = some m) :
    sidecarPath path = path ++ ".meta.pt"
    ∧ saveCheckpoint fs agentState path metadata (sidecarPath path) = some (.metaArtifact m)
    ∧ saveCheckpoint fs agentState path metadata path = some (.agentArtifact agentState)
    ∧ ∀ fs2 : String → Option FileData, fs2 path = fs path →
        loadCheckpoint fs2 path = loadCheckpoint fs path := by
  have hne : path ≠ sidecarPath path := by
    intro h
    have hlen := congrArg String.length h
    unfold sidecarPath at hlen
    rw [String.length_append] at hlen
    have h8 : (".meta.pt" : String).length = 8 := rfl
    rw [h8] at hlen
    omega
  subst hm
  refine ⟨rfl, ?_, ?_, ?_⟩
  · simp [saveCheckpoint]
  · simp [saveCheckpoint, hne]
  · intro fs2 h
    simp [loadCheckpoint, h]

/-- C9 witness: the amended contract applied at a concrete path, metadata
and file system. -/
theorem C9_sidecar_contract_witness :
    ((some 3 : Option ℤ) = some 3)
    ∧ (sidecarPath "ckpt" = "ckpt" ++ ".meta.pt"
       ∧ saveCheckpoint (fun _ => none) 7 "ckpt" (some 3) (sidecarPath "ckpt")
           = some (.metaArtifact 3)
       ∧ saveCheckpoint (fun _ => none) 7 "ckpt" (some 3) "ckpt" = some (.agentArtifact 7)
       ∧ ∀ fs2 : String → Option FileData, fs2 "ckpt" = (fun _ => none : String → Option FileData) "ckpt" →
           loadCheckpoint fs2 "ckpt" = loadCheckpoint (fun _ => none) "ckpt") :=
  ⟨rfl, C9_sidecar_contract (fun _ => none) 7 "ckpt" (some 3) 3 rfl⟩

/-- C3 counterexample.  A normal one-episode run of `train` terminates with
the environment and the agent still unclosed (and the `after_training` hook
invoked): `train` never calls `close`. -/
theorem C3_train_does_not_close :
    train (fun _ => Except.ok (0, 1, none)) (fun _ => Except.ok ()) (fun _ => Except.ok ())
        1 none none TrainLog.start
      = (⟨true, true, false, false⟩, Except.ok ()) :=
  rfl

/-- C3 (amended).  For every episode/evaluation/checkpoint behavior —
normal or raising — `train` invokes the `after_training` hook before
terminating (the `finally` guarantee) but leaves the closed flags exactly as
they were: it never releases the environment or the agent.  The
unconditional release lives one level up: `ExperimentRunner.run` wraps the
training flow in `try/finally trainer.close()`, after which both are
closed. -/
theorem C3_train_finally_contract
    (trainEp : Nat → Except Err (ℚ × Nat × Option ℚ))
    (evalStep ckptStep : Nat → Except Err Unit)
    (n : Nat) (eval_every checkpoint_every : Option Nat) (s : TrainLog) :
    (train trainEp evalStep ckptStep n eval_every checkpoint_every s).1.afterTrainingCalled = true
    ∧ (train trainEp evalStep ckptStep n eval_every checkpoint_every s).1.envClosed = s.envClosed
    ∧ (train trainEp evalStep ckptStep n eval_every checkpoint_every s).1.agentClosed
        = s.agentClosed
    ∧ (runnerRun trainEp evalStep ckptStep n eval_every checkpoint_every s).1.envClosed = true
    ∧ (runnerRun trainEp evalStep ckptStep n eval_every checkpoint_every s).1.agentClosed
        = true := by
  simp [train, runnerRun, tryFinally, beforeTrainingHook, afterTrainingHook, closeTrainer]

/-- Indexing a list at in-bounds positions never raises: the Python list
comprehension over valid indices yields exactly the elements at those
positions. -/
theorem mapM_pyIndex {α : Type} (l : List α) (idxs : List Nat)
    (h : ∀ i ∈ idxs, i < l.length) :
    idxs.mapM (pyIndex l) = Except.ok (idxs.pmap (fun i hi => l.get ⟨i, hi⟩) h) := by
  induction idxs with
  | nil => rfl
  | cons i is ih =>
      have hi : i < l.length := h i (by simp)
      rw [List.mapM_cons, ih (fun j hj => h j (by simp [hj]))]
      simp [pyIndex, List.pmap, List.getElem?_eq_getElem hi]
      rfl

/-- C5.  `sample(k)` fails with a `ValueError` (the readiness error)
whenever the occupancy is below `min_ready` or below `k` — unconditionally
in the drawn indices, because both checks precede the random draw in the
source.  When instead the occupancy is at least `min_ready` and at least
`k`, and the `np.random.choice(n, size=k, replace=False)` draw contract
holds for the drawn indices (exactly `k` pairwise-distinct indices below
the occupancy), `sample(k)` returns the transitions at those `k`
pairwise-distinct positions of the current contents, each a member of the
buffer. -/
theorem C5_sample_contract {α : Type} (b : ReplayBuffer α) (k : Nat) (idxs : List Nat) :
    (b.min_size ≤ b.buffer.length → k ≤ b.buffer.length →
      idxs.Nodup → idxs.length = k → (∀ i ∈ idxs, i < b.buffer.length) →
      ∃ picks : List (Fin b.buffer.length),
        picks.Nodup ∧ picks.length = k ∧ (∀ p ∈ picks, b.buffer.get p ∈ b.buffer) ∧
        b.sample k idxs = Except.ok (picks.map fun p => b.buffer.get p))
    ∧ ((b.buffer.length < b.min_size ∨ b.buffer.length < k) →
      ∃ msg, b.sample k idxs = Except.error (Err.valueError msg)) := by
  constructor
  · intro h1 h2 hnd hlen hbound
    refine ⟨idxs.pmap (fun i hi => (⟨i, hi⟩ : Fin b.buffer.length)) hbound, ?_, ?_, ?_, ?_⟩
    · exact hnd.pmap (fun a ha a2 ha2 e => congrArg Fin.val e)
    · simp [hlen]
    · intro p _
      exact List.get_mem b.buffer p.1 p.2
    · unfold ReplayBuffer.sample
      rw [if_neg (by omega), if_neg (by omega), mapM_pyIndex b.buffer idxs hbound]
      congr 1
      rw [List.map_pmap]
  · intro h
    by_cases h1 : b.buffer.length < b.min_size
    · refine ⟨"Buffer size is below min_size", ?_⟩
      unfold ReplayBuffer.sample
      rw [if_pos h1]
    · have h2 : k > b.buffer.length := by omega
      refine ⟨"Requested batch_size exceeds buffer size", ?_⟩
      unfold ReplayBuffer.sample
      rw [if_neg h1, if_pos h2]

/-- C5 witness: the contract applied to the buffer holding `[10, 20, 30]`
(capacity 5), with every hypothesis discharged at a concrete input for each
branch — success with readiness threshold 1, batch size 2 and draw
`[2, 0]`; failure with batch size 4 exceeding the occupancy 3 (no draw
happens, so the index list is empty); and failure with occupancy 3 below
readiness threshold 4. -/
theorem C5_sample_contract_witness :
    (∃ picks : List (Fin (⟨[10, 20, 30], 5, 1⟩ : ReplayBuffer ℕ).buffer.length),
        picks.Nodup ∧ picks.length = 2
        ∧ (∀ p ∈ picks,
            (⟨[10, 20, 30], 5, 1⟩ : ReplayBuffer ℕ).buffer.get p
              ∈ (⟨[10, 20, 30], 5, 1⟩ : ReplayBuffer ℕ).buffer)
        ∧ (⟨[10, 20, 30], 5, 1⟩ : ReplayBuffer ℕ).sample 2 [2, 0]
            = Except.ok (picks.map fun p => (⟨[10, 20, 30], 5, 1⟩ : ReplayBuffer ℕ).buffer.get p))
    ∧ (∃ msg, (⟨[10, 20, 30], 5, 1⟩ : ReplayBuffer ℕ).sample 4 []
        = Except.error (Err.valueError msg))
    ∧ (∃ msg, (⟨[10, 20, 30], 5, 4⟩ : ReplayBuffer ℕ).sample 2 []
        = Except.error (Err.valueError msg)) :=
  ⟨(C5_sample_contract (⟨[10, 20, 30], 5, 1⟩ : ReplayBuffer ℕ) 2 [2, 0]).1
      (by decide) (by decide) (by decide) (by decide) (by decide),
    (C5_sample_contract (⟨[10, 20, 30], 5, 1⟩ : ReplayBuffer ℕ) 4 []).2 (by decide),
    (C5_sample_contract (⟨[10, 20, 30], 5, 4⟩ : ReplayBuffer ℕ) 2 []).2 (by decide)⟩

/-- C6.  The running-statistic update realizes the single-pass EMA formulas
with the squared deviation taken against the pre-update mean, and
normalization divides the deviation from the mean by
`sqrt(variance) + epsilon`; `normalize` is a pure function of the state (it
returns a value and assigns nothing).  The hypotheses `0 ≤ momentum ≤ 1` and
`0 ≤ running_std` keep the stored-variance quantity non-negative. -/
theorem C6_running_stat_formulas (s : RunningStats) (x : ℝ)
    (hm0 : 0 ≤ s.momentum) (hm1 : s.momentum ≤ 1) (hstd : 0 ≤ s.running_std) :
    (s.updateStats x).running_mean = s.momentum * s.running_mean + (1 - s.momentum) * x
    ∧ (s.updateStats x).variance
        = s.momentum * s.variance + (1 - s.momentum) * (x - s.running_mean) ^ 2
    ∧ s.normalize x = (x - s.running_mean) / (Real.sqrt s.variance + s.epsilon) := by
  refine ⟨?_, ?_, ?_⟩
  · show s.momentum * s.running_mean + x * (1 - s.momentum) = _
    ring
  · show Real.sqrt (s.running_std ^ 2 * s.momentum
        + (x - s.running_mean) ^ 2 * (1 - s.momentum)) ^ 2 = _
    have hv : 0 ≤ s.running_std ^ 2 * s.momentum
        + (x - s.running_mean) ^ 2 * (1 - s.momentum) :=
      add_nonneg (mul_nonneg (sq_nonneg _) hm0) (mul_nonneg (sq_nonneg _) (by linarith))
    rw [Real.sq_sqrt hv]
    show _ = s.momentum * s.running_std ^ 2 + (1 - s.momentum) * (x - s.running_mean) ^ 2
    ring
  · show (x - s.running_mean) / (s.running_std + s.epsilon) = _
    rw [show s.variance = s.running_std ^ 2 from rfl, Real.sqrt_sq hstd]

/-- C6 witness: the formulas applied to the state with mean 0, standard
deviation 1, epsilon 1 and momentum 1/2 at sample 2. -/
theorem C6_running_stat_formulas_witness :
    (0 ≤ (RunningStats.mk 0 1 1 (1 / 2)).momentum
      ∧ (RunningStats.mk 0 1 1 (1 / 2)).momentum ≤ 1
      ∧ 0 ≤ (RunningStats.mk 0 1 1 (1 / 2)).running_std)
    ∧ (((RunningStats.mk 0 1 1 (1 / 2)).updateStats 2).running_mean
          = (RunningStats.mk 0 1 1 (1 / 2)).momentum
              * (RunningStats.mk 0 1 1 (1 / 2)).running_mean
            + (1 - (RunningStats.mk 0 1 1 (1 / 2)).momentum) * 2
        ∧ ((RunningStats.mk 0 1 1 (1 / 2)).updateStats 2).variance
          = (RunningStats.mk 0 1 1 (1 / 2)).momentum * (RunningStats.mk 0 1 1 (1 / 2)).variance
            + (1 - (RunningStats.mk 0 1 1 (1 / 2)).momentum)
              * (2 - (RunningStats.mk 0 1 1 (1 / 2)).running_mean) ^ 2
        ∧ (RunningStats.mk 0 1 1 (1 / 2)).normalize 2
          = (2 - (RunningStats.mk 0 1 1 (1 / 2)).running_mean)
            / (Real.sqrt (RunningStats.mk 0 1 1 (1 / 2)).variance
                + (RunningStats.mk 0 1 1 (1 / 2)).epsilon)) :=
  ⟨⟨by norm_num, by norm_num, by norm_num⟩,
    C6_running_stat_formulas (RunningStats.mk 0 1 1 (1 / 2)) 2
      (by norm_num) (by norm_num) (by norm_num)⟩

/-- Wrapping along a name list applies exactly the enabled registered
names, in list order. -/
theorem applicationOrder_foldl (cfg : WrapperConfig) (names : List String) (env : WrapEnv) :
    (names.foldl (applyOne cfg) env).applicationOrder
      = env.applicationOrder ++ names.filter (fun n => cfg.applied n) := by
  induction names generalizing env with
  | nil => simp
  | cons n ns ih =>
      rw [List.foldl_cons, ih]
      by_cases h : cfg.applied n
      · rw [List.filter_cons_of_pos h]
        simp [applyOne, h, WrapEnv.applicationOrder, List.append_assoc]
      · rw [List.filter_cons_of_neg (by simpa using h)]
        simp [applyOne, h]

/-- C7.  The wrapper chain applies, in order, the enabled registered
transforms of the resolved order (the explicit order filtered to known
names when present, the canonical default otherwise), followed by the
enabled registered transforms absent from the resolved order in
lexicographic-name order; disabled or missing transforms are skipped, never
inserted.  Concretely, explicit order `[normalize_rewards, frame_stack]`
with both enabled applies `normalize_rewards` before `frame_stack`, and the
unlisted enabled `normalize_observations` is appended after them. -/
theorem C7_wrapper_order_resolution (cfg : WrapperConfig) (env : WrapEnv) :
    (applyWrappers env cfg).applicationOrder = env.applicationOrder ++ specApplicationOrder cfg
    ∧ (applyWrappers WrapEnv.base
        ⟨[("normalize_observations", true), ("normalize_rewards", true), ("frame_stack", true)],
          some ["normalize_rewards", "frame_stack"]⟩).applicationOrder
        = ["normalize_rewards", "frame_stack", "normalize_observations"] := by
  constructor
  · show ((sortedLex ((cfg.entries.map Prod.fst).filter
        (fun n => !(resolveWrapperOrder cfg).contains n))).foldl (applyOne cfg)
        ((resolveWrapperOrder cfg).foldl (applyOne cfg) env)).applicationOrder = _
    rw [applicationOrder_foldl, applicationOrder_foldl, List.append_assoc]
    unfold specApplicationOrder resolveWrapperOrder
    rfl
  · rfl

/-- C10.  `evaluate(0)` runs no episodes and returns the zero means rather
than raising `ZeroDivisionError`, for every agent and every environment
chain, because the aggregation divisor is `max(len(rewards), 1)`. -/
theorem C10_evaluate_zero_episodes (agent : AgentModel) (env : EvalEnv) :
    (evaluate agent env 0).2 = Except.ok (0, 0) := by
  unfold evaluate
  simp [evalLoop, pydiv]

/-- C2.  The claim fails on the code: evaluation mutates the reward
normalization statistics.  `NormalizeRewards` defines no `set_training`
hook, so `set_env_training_mode(env, False)` leaves its `training` flag
true and the evaluation step updates its running statistics; on the chain
`NormalizeRewards(mean 0, std 1)` over a base whose single step yields
reward `1.0`, `evaluate(1)` leaves the running mean at `0.01 ≠ 0.0` (the
step then raises `AttributeError` at the undefined `_normalize`, which
propagates out of `evaluate` with the mutation retained). -/
theorem C2_evaluation_mutates_reward_stats :
    (EvalEnv.normRew ⟨0, 1⟩ true (.scripted 0 [(0, 1, true, false)] [])).rewardMeans = [0]
    ∧ ((evaluate ⟨none, fun _ => 0⟩
          (EvalEnv.normRew ⟨0, 1⟩ true (.scripted 0 [(0, 1, true, false)] [])) 1).1.2).rewardMeans
        = [1 / 100]
    ∧ (1 / 100 : ℝ) ≠ 0
    ∧ (evaluate ⟨none, fun _ => 0⟩
          (EvalEnv.normRew ⟨0, 1⟩ true (.scripted 0 [(0, 1, true, false)] [])) 1).2
        = Except.error (Err.attributeError "_normalize") := by
  refine ⟨by simp [EvalEnv.rewardMeans], ?_, by norm_num, ?_⟩
  · unfold evaluate
    simp [evalLoop, runEpisode, runEpisodeAux, EvalEnv.step, EvalEnv.reset,
      EvalEnv.setTrainingMode, EvalEnv.baseScriptLen, EvalEnv.rewardMeans,
      RewardStats.updateStats]
  · unfold evaluate
    simp [evalLoop, runEpisode, runEpisodeAux, EvalEnv.step, EvalEnv.reset,
      EvalEnv.setTrainingMode, EvalEnv.baseScriptLen, RewardStats.updateStats]

end RLSpec
